import Mathlib

/-!
Verification development for the book-monitor core: a shallow embedding of
the org-mode parsing utilities (`parsers/org_utils.py`), the chapter parser
(`parsers/chapter_parser.py`), the TOC parser (`parsers/toc_parser.py`), the
build orchestrator (`parsers/book_builder.py`) and the data model
(`models/chapter.py`, `models/book.py`, `utils/exceptions.py`).

Text is modelled as `String` / `List Char`; each Python regex substitution
used by the source is embedded as a dedicated scanning function whose
semantics follow the regex engine's leftmost, non-overlapping match rule for
that concrete pattern.  Scanning functions that consume a variable number of
characters per step take an explicit fuel argument; callers pass the input
length, which bounds the number of steps since every step consumes at least
one character.
-/

namespace BookMonitor

/-- Python `\s` (ASCII range): space, tab, newline, carriage return,
vertical tab, form feed.  Also the whitespace set of `str.split()` and
`str.strip()` for ASCII text. -/
def isPySpace (c : Char) : Bool :=
  c = ' ' || c = '\t' || c = '\n' || c = '\r' || c = '\x0b' || c = '\x0c'

/-- Python `str.strip()` on a character list. -/
def pyStrip (cs : List Char) : List Char :=
  ((cs.dropWhile isPySpace).reverse.dropWhile isPySpace).reverse

/-- Python `s.split('\n')`: split on every newline; `n` separators yield
`n + 1` fields, so the result is never empty. -/
def splitOnNl : List Char → List (List Char)
  | [] => [[]]
  | c :: cs =>
    if c = '\n' then [] :: splitOnNl cs
    else
      match splitOnNl cs with
      | [] => [[c]]
      | l :: ls => (c :: l) :: ls

/-- Python `'\n'.join(lines)`. -/
def joinNl : List (List Char) → List Char
  | [] => []
  | [l] => l
  | l :: l' :: ls => l ++ '\n' :: joinNl (l' :: ls)

/-- Case-insensitive prefix test (ASCII lowering), for patterns compiled
with `re.IGNORECASE`. -/
def prefixCI : List Char → List Char → Bool
  | [], _ => true
  | _ :: _, [] => false
  | p :: ps, c :: cs => (p.toLower = c.toLower) && prefixCI ps cs

/-- Drop through the first case-insensitive occurrence of `pat`, returning
the suffix after it (`none` when `pat` does not occur). -/
def dropAfterCI (pat : List Char) : List Char → Option (List Char)
  | [] => none
  | c :: cs =>
    if prefixCI pat (c :: cs) then some ((c :: cs).drop pat.length)
    else dropAfterCI pat cs

/-- `re.sub(open + '.*?' + close, '', text, flags=DOTALL|IGNORECASE)`:
leftmost match starts at the first occurrence of `openPat` that is followed
by `closePat`; the non-greedy body ends at the first `closePat`; scanning
resumes after the match.  Used for property drawers and the three fenced
block patterns of `count_words` (`org_utils.py` lines 24, 33, 36, 39). -/
def stripBlockAux (openPat closePat : List Char) : Nat → List Char → List Char
  | 0, cs => cs
  | _ + 1, [] => []
  | fuel + 1, c :: cs =>
    if prefixCI openPat (c :: cs) then
      match dropAfterCI closePat ((c :: cs).drop openPat.length) with
      | some rest => stripBlockAux openPat closePat fuel rest
      | none => c :: stripBlockAux openPat closePat fuel cs
    else c :: stripBlockAux openPat closePat fuel cs

def stripBlock (openPat closePat : List Char) (cs : List Char) : List Char :=
  stripBlockAux openPat closePat cs.length cs

/-- Characters of the tag regex class `[a-zA-Z0-9_@#%:]`
(`org_utils.py` line 27). -/
def isTagChar (c : Char) : Bool :=
  (c.isAlpha && c.toNat < 128) || c.isDigit || c = '_' || c = '@' || c = '#' || c = '%' || c = ':'

/-- Index of the last `':'` in `l`, if any. -/
def lastColonIdx (l : List Char) : Option Nat :=
  match l.reverse.findIdx? (fun c => c = ':') with
  | some r => some (l.length - 1 - r)
  | none => none

/-- `re.sub(r':[a-zA-Z0-9_@#%:]+:', '', text)` (`org_utils.py` line 27).
A match at a `':'` needs at least one class character and then a closing
`':'`; since `':'` itself is in the class, the greedy engine backtracks to
the last `':'` inside the maximal class-character run. -/
def stripTagsAux : Nat → List Char → List Char
  | 0, cs => cs
  | _ + 1, [] => []
  | fuel + 1, c :: cs =>
    if c = ':' then
      let run := cs.takeWhile isTagChar
      match lastColonIdx run with
      | some k =>
        if 1 ≤ k then stripTagsAux fuel (cs.drop (k + 1))
        else c :: stripTagsAux fuel cs
      | none => c :: stripTagsAux fuel cs
    else c :: stripTagsAux fuel cs

def stripTags (cs : List Char) : List Char :=
  stripTagsAux cs.length cs

/-- `re.sub(r'^#\+.*$', '', text, flags=MULTILINE)` (`org_utils.py`
line 21): the content of every line starting with `#+` is removed; the
newline itself is kept. -/
def stripDirectives (cs : List Char) : List Char :=
  joinNl ((splitOnNl cs).map fun l => if ['#', '+'].isPrefixOf l then [] else l)

/-- `re.sub(r'^#[^+].*$', '', text, flags=MULTILINE)` (`org_utils.py`
line 30).  At a line start, `#` followed by any character other than `+`
matches; `[^+]` may itself consume the newline (negated classes match
newlines), after which `.*$` consumes the following line, so the match
always extends to the end of the line containing that second character. -/
def stripCommentsAux : Nat → Bool → List Char → List Char
  | 0, _, cs => cs
  | _ + 1, _, [] => []
  | fuel + 1, atStart, c :: cs =>
    if atStart && c = '#' then
      match cs with
      | [] => c :: stripCommentsAux fuel false []
      | x :: rest =>
        if x = '+' then c :: stripCommentsAux fuel false cs
        else stripCommentsAux fuel false (rest.dropWhile (fun d => d ≠ '\n'))
    else (c :: stripCommentsAux fuel (c = '\n') cs)

def stripComments (cs : List Char) : List Char :=
  stripCommentsAux cs.length true cs

/-- Python `len(text.split())`: number of maximal whitespace-free runs. -/
def pySplitCountAux : Nat → List Char → Nat
  | 0, _ => 0
  | _ + 1, [] => 0
  | fuel + 1, c :: cs =>
    if isPySpace c then pySplitCountAux fuel cs
    else 1 + pySplitCountAux fuel (cs.dropWhile (fun d => !isPySpace d))

def pySplitCount (cs : List Char) : Nat :=
  pySplitCountAux cs.length cs

/-- `count_words` from `parsers/org_utils.py` lines 7-43: strips, in source
order, full-line directives, property drawers, tag clusters, full-line
comments, and the three fenced block patterns, then counts
whitespace-separated tokens.  Empty input returns 0. -/
def count_words (text : String) : Nat :=
  if text = "" then 0
  else
    let t1 := stripDirectives text.toList
    let t2 := stripBlock ":PROPERTIES:".toList ":END:".toList t1
    let t3 := stripTags t2
    let t4 := stripComments t3
    let t5 := stripBlock "#+BEGIN_SRC".toList "#+END_SRC".toList t4
    let t6 := stripBlock "#+BEGIN_EXAMPLE".toList "#+END_EXAMPLE".toList t5
    let t7 := stripBlock "#+BEGIN_QUOTE".toList "#+END_QUOTE".toList t6
    pySplitCount t7

/-! ## Data model (`models/chapter.py`, `models/book.py`)

The `datetime` fields (`created_at`, `updated_at`) are process-clock
metadata and are omitted; no claim concerns them. -/

/-- `Section` dataclass (`models/chapter.py` lines 8-22). -/
structure Section where
  title : String
  content : String := ""
  word_count : Nat := 0
  order : Nat := 0
deriving DecidableEq, Repr

/-- Dataclass construction followed by `__post_init__`: when `content` is
non-empty and `word_count` was left at 0, the naive whitespace count is
filled in (`models/chapter.py` lines 19-22). -/
def Section.init (title content : String) (order : Nat) : Section :=
  let s : Section := { title := title, content := content, word_count := 0, order := order }
  if s.content ≠ "" ∧ s.word_count = 0 then
    { s with word_count := pySplitCount s.content.toList }
  else s

/-- `Chapter` dataclass (`models/chapter.py` lines 25-62). -/
structure Chapter where
  title : String
  sections : List Section := []
  target_words : Nat := 3000
  order : Nat := 0
  summary : String := ""
deriving DecidableEq, Repr

/-- `Chapter.calculate_word_count` (`models/chapter.py` lines 37-39): the
sum of the sections' word counts. -/
def Chapter.calculate_word_count (c : Chapter) : Nat :=
  (c.sections.map Section.word_count).sum

/-- `Chapter.add_section` (`models/chapter.py` lines 48-51). -/
def Chapter.add_section (c : Chapter) (s : Section) : Chapter :=
  { c with sections := c.sections ++ [s] }

/-- `Book` dataclass (`models/book.py` lines 11-44). -/
structure Book where
  title : String
  author : String := ""
  chapters : List Chapter := []
  target_words : Nat := 50000
  description : String := ""
deriving DecidableEq, Repr

/-- `Book.calculate_total_words` (`models/book.py` lines 23-25). -/
def Book.calculate_total_words (b : Book) : Nat :=
  (b.chapters.map Chapter.calculate_word_count).sum

/-- `Book.add_chapter` (`models/book.py` lines 34-37). -/
def Book.add_chapter (b : Book) (c : Chapter) : Book :=
  { b with chapters := b.chapters ++ [c] }

/-! ## Chapter parser (`parsers/chapter_parser.py`) -/

/-- Characters of the heading-tag class `[a-zA-Z0-9_:]` used by the title
regex of `chapter_parser.py` lines 72 and 136. -/
def isTitleTagChar (c : Char) : Bool :=
  (c.isAlpha && c.toNat < 128) || c.isDigit || c = '_' || c = ':'

/-- Matches `:[a-zA-Z0-9_:]+:` against the whole of `cs`: a colon, at least
one class character, and a final colon at the end. -/
def matchTagCluster (cs : List Char) : Bool :=
  match cs with
  | ':' :: rest => rest.length ≥ 2 && rest.dropLast.all isTitleTagChar && rest.getLast? = some ':'
  | _ => false

/-- Matches `\s+:[a-zA-Z0-9_:]+:` against the whole of `cs`: at least one
whitespace character, then a tag cluster reaching the end. -/
def matchWsTag (cs : List Char) : Bool :=
  let w := cs.takeWhile isPySpace
  w ≠ [] && matchTagCluster (cs.dropWhile isPySpace)

/-- The title regex `^([^:]+?)(?:\s+:[a-zA-Z0-9_:]+:)?$`
(`chapter_parser.py` lines 72 and 136): the non-greedy group takes the
shortest non-empty colon-free prefix after which either the line ends or a
whitespace-plus-tag-cluster reaches the end. -/
def extractTitleAux (acc : List Char) : List Char → Option (List Char)
  | [] => if acc ≠ [] then some acc.reverse else none
  | c :: cs =>
    if acc ≠ [] ∧ matchWsTag (c :: cs) then some acc.reverse
    else if c = ':' then none
    else extractTitleAux (c :: acc) cs

/-- `title_line` post-processing of `chapter_parser.py` lines 70-76 and
134-140: strip, apply the title regex, strip the group (or keep the
stripped line when the regex fails to match). -/
def headingTitle (afterStars : List Char) : List Char :=
  let tl := pyStrip afterStars
  match extractTitleAux [] tl with
  | some g => pyStrip g
  | none => tl

/-- One-star heading test `line.startswith('* ')`. -/
def isChapterHeading (l : List Char) : Bool :=
  ['*', ' '].isPrefixOf l

/-- Two-star heading test `line.startswith('** ')`. -/
def isSectionHeading (l : List Char) : Bool :=
  ['*', '*', ' '].isPrefixOf l

/-- Body of a parsed section: joined content lines, stripped, with the
org-aware word count overriding the dataclass count
(`chapter_parser.py` lines 122-131 and 149-158). -/
def mkParsedSection (title : List Char) (contentLines : List (List Char)) (ord : Nat) : Section :=
  let content := pyStrip (joinNl contentLines)
  let s := Section.init (String.mk title) (String.mk content) ord
  { s with word_count := count_words (String.mk content) }

/-- The loop of `ChapterParser._extract_sections` (`chapter_parser.py`
lines 112-160): a two-star heading flushes the current section (order =
number of sections so far) and starts a new one; other lines accumulate
into the current section; a trailing open section is flushed at the end. -/
def sectionsLoop : List (List Char) → Option (List Char) → List (List Char) → List Section → List Section
  | [], none, _, secs => secs
  | [], some t, content, secs => secs ++ [mkParsedSection t content secs.length]
  | l :: ls, cur, content, secs =>
    if isSectionHeading l then
      let secs' :=
        match cur with
        | none => secs
        | some t => secs ++ [mkParsedSection t content secs.length]
      sectionsLoop ls (some (headingTitle (l.drop 3))) [] secs'
    else
      match cur with
      | none => sectionsLoop ls none content secs
      | some t => sectionsLoop ls (some t) (content ++ [l]) secs

/-- `ChapterParser._extract_sections` (`chapter_parser.py` lines 103-160). -/
def extract_sections (chapterContent : List Char) : List Section :=
  sectionsLoop (splitOnNl chapterContent) none [] []

/-- Locating the chapter heading and span
(`chapter_parser.py` lines 60-91): the first `* ` line gives the title (or
no chapter when there is none, or the title is empty); the span runs from
that line to the next `* ` line or end of file, re-joined with newlines. -/
def chapterTitleAndSpan (content : List Char) : Option (List Char × List Char) :=
  let lines := splitOnNl content
  match lines.findIdx? isChapterHeading with
  | none => none
  | some i =>
    let title := headingTitle ((lines.getD i []).drop 2)
    if title = [] then none
    else
      let rest := lines.drop (i + 1)
      let j :=
        match rest.findIdx? isChapterHeading with
        | some k => k
        | none => rest.length
      let span := lines.getD i [] :: rest.take j
      some (title, joinNl span)

/-- `ChapterParser._extract_chapter` (`chapter_parser.py` lines 51-101). -/
def extractChapter (content : String) : Option Chapter :=
  match chapterTitleAndSpan content.toList with
  | none => none
  | some (t, span) =>
    some ((extract_sections span).foldl Chapter.add_section { title := String.mk t })

/-- Modelled from the spec: the "intro word count" — the markup-aware word
count of the text between the chapter heading and the first two-star
section heading of the chapter span.  The source has no corresponding
definition (intro text is neither materialized nor counted anywhere); this
definition exists to state the spec's invariant against the code. -/
def introWordCountSpec (content : String) : Nat :=
  match chapterTitleAndSpan content.toList with
  | none => 0
  | some (_, span) =>
    let introLines := ((splitOnNl span).drop 1).takeWhile fun l => !isSectionHeading l
    count_words (String.mk (joinNl introLines))

/-! ## Exceptions (`utils/exceptions.py`) and the I/O model

Python exceptions are embedded as one inductive covering both the builtin
exceptions raised by `open()` and the custom hierarchy of
`utils/exceptions.py`.  The custom `FileNotFoundError` (lines 25-37)
*shadows* the builtin of the same name wherever it is imported; an `except
FileNotFoundError` clause in `chapter_parser.py` therefore tests for the
custom class, which is unrelated to the builtin one.  The matcher
functions below embed exactly that class test.  `ParseError` is modelled
without `line_number`, which none of the parsers ever passes. -/

inductive PyExc where
  | builtinFileNotFound (msg : String)
  | permissionError (msg : String)
  | unicodeDecodeError (msg : String)
  | typeError (msg : String)
  | otherError (msg : String)
  | fileNotFound (path : String) (details : Option String)
  | parseError (path : String) (details : Option String)
  | configError (key : String) (details : Option String)
deriving DecidableEq, Repr

/-- `isinstance(e, FileNotFoundError)` where the name is the *custom* class
of `utils/exceptions.py` (the import in `chapter_parser.py` line 7 and
`book_builder.py` line 9 shadows the builtin). -/
def isCustomFileNotFound : PyExc → Bool
  | .fileNotFound _ _ => true
  | _ => false

/-- `isinstance(e, ParseError)`. -/
def isParseErrorExc : PyExc → Bool
  | .parseError _ _ => true
  | _ => false

/-- `isinstance(e, PermissionError)` (builtin). -/
def isPermissionError : PyExc → Bool
  | .permissionError _ => true
  | _ => false

/-- `isinstance(e, UnicodeDecodeError)` (builtin). -/
def isUnicodeDecodeError : PyExc → Bool
  | .unicodeDecodeError _ => true
  | _ => false

/-- Python `str(e)`.  For the custom hierarchy this follows
`BookMonitorException.__str__` (`utils/exceptions.py` lines 18-22) with the
messages assembled by each subclass `__init__`; for builtin exceptions the
message carried by the constructor. -/
def pyExcStr : PyExc → String
  | .builtinFileNotFound m => m
  | .permissionError m => m
  | .unicodeDecodeError m => m
  | .typeError m => m
  | .otherError m => m
  | .fileNotFound p d => "File not found: " ++ p ++ (match d with | some s => ": " ++ s | none => "")
  | .parseError p d => "Parse error in " ++ p ++ (match d with | some s => ": " ++ s | none => "")
  | .configError k d => "Configuration error for key '" ++ k ++ "'" ++ (match d with | some s => ": " ++ s | none => "")

/-- A value returned normally or an exception propagating out of a call. -/
inductive PyResult (α : Type) where
  | ok (val : α)
  | raised (e : PyExc)
deriving DecidableEq, Repr

/-- Outcome of `open(path).read()` on one file. -/
inductive ReadResult where
  | ok (content : String)
  | missing
  | permissionDenied
  | decodeFailure
  | ioFailure (msg : String)
deriving DecidableEq, Repr

/-- The file-system environment: what reading each path yields, and the
result of `glob.glob(os.path.join(dir, "*.org"))` per directory (full
paths, in glob order).  A path is taken to exist (`os.path.exists`)
exactly when reading it does not report `missing`. -/
structure FS where
  read : String → ReadResult
  orgFiles : String → List String

/-- CPython's message for the builtin `FileNotFoundError` from `open`. -/
def fileNotFoundMsg (path : String) : String :=
  "[Errno 2] No such file or directory: '" ++ path ++ "'"

/-- The exception `open(path, encoding='utf-8').read()` raises, if any. -/
def openException (path : String) : ReadResult → Option PyExc
  | .ok _ => none
  | .missing => some (.builtinFileNotFound (fileNotFoundMsg path))
  | .permissionDenied => some (.permissionError ("[Errno 13] Permission denied: '" ++ path ++ "'"))
  | .decodeFailure => some (.unicodeDecodeError "'utf-8' codec can't decode byte")
  | .ioFailure m => some (.otherError m)

/-- `ChapterParser.parse` (`chapter_parser.py` lines 21-49).  The
`except FileNotFoundError` clause (line 34) tests for the imported custom
class, which `open` never raises, so a missing file falls through to the
final `except Exception` (line 40).  Afterwards: blank content returns
`None`; `_extract_chapter`, which is total in this model, produces the
chapter (so the `ParseError` wrap of line 48 cannot fire). -/
def chapterParse (fs : FS) (path : String) : PyResult (Option Chapter) :=
  match fs.read path with
  | .ok content =>
    if pyStrip content.toList = [] then .ok none
    else .ok (extractChapter content)
  | r =>
    match openException path r with
    | some e =>
      if isCustomFileNotFound e then
        .raised (.fileNotFound path (some "Chapter file referenced in TOC but not found"))
      else if isPermissionError e then
        .raised (.parseError path (some "Permission denied reading chapter file"))
      else if isUnicodeDecodeError e then
        .raised (.parseError path (some "File encoding error - expected UTF-8"))
      else
        .raised (.parseError path (some ("Unexpected error reading file: " ++ pyExcStr e)))
    | none => .ok none

/-! ## TOC parser (`parsers/toc_parser.py`) -/

/-- `re.match(r'^\*\s+', line)`: a single star followed by whitespace. -/
def isTopHeadingRe (l : List Char) : Bool :=
  match l with
  | '*' :: c :: _ => isPySpace c
  | _ => false

/-- The scanning loop of `TocParser._extract_first_section`
(`toc_parser.py` lines 115-134). -/
def fsLoop : List (List Char) → Bool → List (List Char)
  | [], _ => []
  | l :: ls, found =>
    if isTopHeadingRe l then
      if found then [] else l :: fsLoop ls true
    else if found then l :: fsLoop ls true
    else fsLoop ls false

/-- `TocParser._extract_first_section` (`toc_parser.py` lines 105-134):
lines from the first `^\*\s+` heading up to (excluding) the next one,
re-joined with newlines. -/
def extract_first_section (content : List Char) : List Char :=
  joinNl (fsLoop (splitOnNl content) false)

/-- Match `\[\[` ++ `pre` ++ `([^\]]+)\]\[([^\]]+)\]\]` at the head of
`cs`; both groups end at the first `']'`, since `']'` is excluded from the
class so the greedy engine cannot extend or backtrack past it. -/
def matchLinkAt (pre : List Char) (cs : List Char) : Option (List Char × List Char × List Char) :=
  if ('[' :: '[' :: pre).isPrefixOf cs then
    let r1 := cs.drop (2 + pre.length)
    let u := r1.takeWhile (fun c => c ≠ ']')
    match u, r1.dropWhile (fun c => c ≠ ']') with
    | _ :: _, ']' :: '[' :: r3 =>
      let d := r3.takeWhile (fun c => c ≠ ']')
      match d, r3.dropWhile (fun c => c ≠ ']') with
      | _ :: _, ']' :: ']' :: rest => some (u, d, rest)
      | _, _ => none
    | _, _ => none
  else none

/-- `re.findall` for the link patterns: leftmost, non-overlapping matches,
scanning resuming after each match. -/
def findLinksAux (pre : List Char) : Nat → List Char → List (List Char × List Char)
  | 0, _ => []
  | _ + 1, [] => []
  | fuel + 1, c :: cs =>
    match matchLinkAt pre (c :: cs) with
    | some (u, d, rest) => (u, d) :: findLinksAux pre fuel rest
    | none => findLinksAux pre fuel cs

def findLinks (pre cs : List Char) : List (List Char × List Char) :=
  findLinksAux pre cs.length cs

/-- `re.search(r'\[\[(?:file:|id:)[^\]]+\]\[[^\]]+\]\]', line)`
(`toc_parser.py` line 81). -/
def containsTocLinkAux : Nat → List Char → Bool
  | 0, _ => false
  | _ + 1, [] => false
  | fuel + 1, c :: cs =>
    (matchLinkAt "file:".toList (c :: cs)).isSome
      || (matchLinkAt "id:".toList (c :: cs)).isSome
      || containsTocLinkAux fuel cs

def containsTocLink (cs : List Char) : Bool :=
  containsTocLinkAux cs.length cs

/-- `re.match(r'^\*\*\s+(.+)$', line)` (`toc_parser.py` line 77): two
stars, at least one whitespace character, and a non-empty remainder; when
everything after the stars is whitespace the greedy `\s+` backtracks one
character so `.+` can take it. -/
def partMatch (l : List Char) : Option (List Char) :=
  match l with
  | '*' :: '*' :: rest =>
    let m := (rest.takeWhile isPySpace).length
    if m = 0 then none
    else if m < rest.length then some (rest.drop m)
    else if 2 ≤ m then some (rest.drop (m - 1))
    else none
  | _ => none

/-- The per-line body of the loop in `TocParser._extract_chapters`
(`toc_parser.py` lines 75-101): a two-star heading without a link becomes a
part marker; otherwise `file:` links and then `id:` links are collected,
stripped, skipped when empty, with `id:` links going through GUID
resolution (abstracted as `resolve`). -/
def lineItems (resolve : List Char → Option String) (l : List Char) : List (Option String × String) :=
  let links : List (Option String × String) :=
    ((findLinks "file:".toList l).filterMap fun p =>
      let fn := pyStrip p.1
      let t := pyStrip p.2
      if fn ≠ [] ∧ t ≠ [] then some (some (String.mk fn), String.mk t) else none)
    ++ ((findLinks "id:".toList l).filterMap fun p =>
      let g := pyStrip p.1
      let t := pyStrip p.2
      if g ≠ [] ∧ t ≠ [] then (resolve g).map (fun fn => (some fn, String.mk t)) else none)
  match partMatch l with
  | some g => if !containsTocLink l then [(none, String.mk (pyStrip g))] else links
  | none => links

/-- `TocParser._extract_chapters` (`toc_parser.py` lines 57-103). -/
def extract_chapters (resolve : List Char → Option String) (content : List Char) : List (Option String × String) :=
  (splitOnNl (extract_first_section content)).flatMap (lineItems resolve)

/-- `os.path.dirname` for slash-separated paths. -/
def pyDirname (p : String) : String :=
  String.mk (((p.toList.reverse.dropWhile (fun c => c ≠ '/')).drop 1).reverse)

/-- `os.path.basename` for slash-separated paths. -/
def pyBasename (p : String) : String :=
  String.mk (p.toList.reverse.takeWhile (fun c => c ≠ '/')).reverse

/-- `\s*` ++ guid ++ `\s*` against the whole of `cs` (the guid is already
stripped, so the greedy leading `\s*` stops exactly at its first
character). -/
def matchGuidTail (guid cs : List Char) : Bool :=
  let r := cs.dropWhile isPySpace
  prefixCI guid r && (r.drop guid.length).all isPySpace

/-- One line matching `^#\+ID:\s*guid\s*$` or `^\s*:ID:\s*guid\s*$`
(case-insensitive, `toc_parser.py` lines 154-161). -/
def idLineMatch (guid l : List Char) : Bool :=
  (prefixCI "#+ID:".toList l && matchGuidTail guid (l.drop 5))
    || (let r := l.dropWhile isPySpace
        prefixCI ":ID:".toList r && matchGuidTail guid (r.drop 4))

/-- Whether one sibling file declares the guid; unreadable files are
skipped (`except (IOError, UnicodeDecodeError): continue`). -/
def fileMatchesGuid (fs : FS) (guid : List Char) (path : String) : Bool :=
  match fs.read path with
  | .ok content => (splitOnNl content.toList).any (idLineMatch guid)
  | _ => false

/-- `TocParser._resolve_guid_to_filename` (`toc_parser.py` lines 136-168). -/
def resolve_guid_to_filename (fs : FS) (dirPath : String) (guid : List Char) : Option String :=
  ((fs.orgFiles dirPath).find? (fileMatchesGuid fs guid)).map pyBasename

/-- `TocParser.parse` (`toc_parser.py` lines 23-55): explicit existence
check raising the custom `FileNotFoundError`, read-failure dispatch, the
blank-content `ParseError`, then extraction (total in this model, so the
wrapping `except` of line 54 cannot fire). -/
def tocParse (fs : FS) (path : String) : PyResult (List (Option String × String)) :=
  if fs.read path = .missing then
    .raised (.fileNotFound path (some "TOC file is required for building the book"))
  else
    match fs.read path with
    | .ok content =>
      if pyStrip content.toList = [] then .raised (.parseError path (some "TOC file is empty"))
      else .ok (extract_chapters (resolve_guid_to_filename fs (pyDirname path)) content.toList)
    | r =>
      match openException path r with
      | some e =>
        if isPermissionError e then
          .raised (.parseError path (some "Permission denied reading TOC file"))
        else if isUnicodeDecodeError e then
          .raised (.parseError path (some "File encoding error - expected UTF-8"))
        else
          .raised (.parseError path (some ("Unexpected error reading file: " ++ pyExcStr e)))
      | none => .ok []

/-! ## Book builder (`parsers/book_builder.py`) -/

/-- `os.path.join` for a directory and a relative file name. -/
def joinPath (dir f : String) : String :=
  dir ++ "/" ++ f

/-- CPython's `TypeError` message for `os.path.join(dir, None)`. -/
def typeErrorJoinNone : String :=
  "join() argument must be str, bytes, or os.PathLike object, not 'NoneType'"

/-- Result and accumulated non-fatal diagnostics of one `build()` call. -/
structure BuildOutcome where
  result : PyResult (Option Book)
  errors : List String
deriving DecidableEq, Repr

/-- One iteration of the chapter loop of `BookBuilder.build`
(`book_builder.py` lines 74-87) over the accumulator (book, number of
successful chapters, error log).  A part-marker entry has filename `None`,
so `os.path.join` raises `TypeError`, caught by `except Exception`. -/
def buildStep (fs : FS) (dir : String) (acc : Book × Nat × List String) (entry : Option String × String) : Book × Nat × List String :=
  match entry.1 with
  | none =>
    (acc.1, acc.2.1, acc.2.2 ++ ["Chapter None: Unexpected error - " ++ typeErrorJoinNone])
  | some filename =>
    match chapterParse fs (joinPath dir filename) with
    | .ok (some ch) => (acc.1.add_chapter ch, acc.2.1 + 1, acc.2.2)
    | .ok none => (acc.1, acc.2.1, acc.2.2 ++ ["Chapter " ++ filename ++ " returned no content"])
    | .raised e =>
      if isCustomFileNotFound e || isParseErrorExc e then
        (acc.1, acc.2.1, acc.2.2 ++ ["Chapter " ++ filename ++ ": " ++ pyExcStr e])
      else
        (acc.1, acc.2.1, acc.2.2 ++ ["Chapter " ++ filename ++ ": Unexpected error - " ++ pyExcStr e])

/-- `BookBuilder.build` (`book_builder.py` lines 37-99): the error log is
cleared on entry; a TOC-level `FileNotFoundError`/`ParseError` re-raises;
an empty entry list yields `None`; otherwise the chapter loop runs and the
result is `None` exactly when no chapter succeeded. -/
def build (fs : FS) (dirPath : String) : BuildOutcome :=
  let tocPath := joinPath dirPath "toc.org"
  match tocParse fs tocPath with
  | .raised e => { result := .raised e, errors := [] }
  | .ok chapterList =>
    if chapterList = [] then { result := .ok none, errors := [] }
    else
      let acc := chapterList.foldl (buildStep fs dirPath) ({ title := "Book Monitor", author := "Unknown" }, 0, [])
      if acc.2.1 = 0 then { result := .ok none, errors := acc.2.2 }
      else { result := .ok (some acc.1), errors := acc.2.2 }

/-- Whether processing one TOC entry produces a chapter
(the `if chapter:` branch of `book_builder.py` line 77). -/
def entrySucceeds (fs : FS) (dir : String) (entry : Option String × String) : Bool :=
  match entry.1 with
  | none => false
  | some f =>
    match chapterParse fs (joinPath dir f) with
    | .ok (some _) => true
    | _ => false

/-- The diagnostic string a failing TOC entry contributes
(mirrors the error branches of `buildStep`). -/
def entryFailMsg (fs : FS) (dir : String) (entry : Option String × String) : String :=
  match entry.1 with
  | none => "Chapter None: Unexpected error - " ++ typeErrorJoinNone
  | some filename =>
    match chapterParse fs (joinPath dir filename) with
    | .ok _ => "Chapter " ++ filename ++ " returned no content"
    | .raised e =>
      if isCustomFileNotFound e || isParseErrorExc e then
        "Chapter " ++ filename ++ ": " ++ pyExcStr e
      else
        "Chapter " ++ filename ++ ": Unexpected error - " ++ pyExcStr e

/-! ## Link extraction (`parsers/org_utils.py` lines 83-114) -/

/-- Matches of `\[\[([^\]]+)\]\[([^\]]+)\]\]` (described links), via
`re.findall`. -/
def findDescribed (cs : List Char) : List (List Char × List Char) :=
  findLinks [] cs

/-- `re.sub(r'\[\[[^\]]+\]\[[^\]]+\]\]', '', text)` (`org_utils.py`
line 106): the described-link occurrences are removed textually. -/
def removeDescribedAux : Nat → List Char → List Char
  | 0, cs => cs
  | _ + 1, [] => []
  | fuel + 1, c :: cs =>
    match matchLinkAt [] (c :: cs) with
    | some (_, _, rest) => removeDescribedAux fuel rest
    | none => c :: removeDescribedAux fuel cs

def removeDescribed (cs : List Char) : List Char :=
  removeDescribedAux cs.length cs

/-- Match `\[\[([^\]]+)\]\]` at the head of `cs`. -/
def matchSimpleAt (cs : List Char) : Option (List Char × List Char) :=
  if ['[', '['].isPrefixOf cs then
    let r1 := cs.drop 2
    let u := r1.takeWhile (fun c => c ≠ ']')
    match u, r1.dropWhile (fun c => c ≠ ']') with
    | _ :: _, ']' :: ']' :: rest => some (u, rest)
    | _, _ => none
  else none

/-- `re.findall(r'\[\[([^\]]+)\]\]', ...)` (`org_utils.py` line 110). -/
def findSimpleAux : Nat → List Char → List (List Char)
  | 0, _ => []
  | _ + 1, [] => []
  | fuel + 1, c :: cs =>
    match matchSimpleAt (c :: cs) with
    | some (u, rest) => u :: findSimpleAux fuel rest
    | none => findSimpleAux fuel cs

def findSimple (cs : List Char) : List (List Char) :=
  findSimpleAux cs.length cs

/-- `extract_org_links` (`org_utils.py` lines 83-114): described links in
appearance order, then the simple links found in the text with
described-link occurrences removed, each as `(url, url)`. -/
def extract_org_links (text : String) : List (String × String) :=
  if text = "" then []
  else
    ((findDescribed text.toList).map fun p => (String.mk p.1, String.mk p.2))
      ++ ((findSimple (removeDescribed text.toList)).map fun u => (String.mk u, String.mk u))

/-- Modelled from the spec: the claim's reading of `extract_links` — bare
links are appended "only if their URL wasn't already captured by a
described link", i.e. the bare suffix is additionally filtered by URL
against the described URLs.  The source applies no such URL filter; this
definition exists to compare the two. -/
def extract_links_claim (text : String) : List (String × String) :=
  if text = "" then []
  else
    let desc := (findDescribed text.toList).map fun p => (String.mk p.1, String.mk p.2)
    desc ++ (((findSimple (removeDescribed text.toList)).map String.mk).filter
      (fun u => !(desc.map Prod.fst).contains u)).map fun u => (u, u)

/-- The characters of a described link `[[u][d]]`. -/
def descLinkChars (u d : List Char) : List Char :=
  '[' :: '[' :: u ++ ']' :: '[' :: d ++ ']' :: ']' :: []

/-! ## The error-log copy (`book_builder.py` lines 127-133)

`get_errors` returns `self.errors.copy()`.  To state that mutating the
returned Python list cannot affect the builder's internal log, Python list
objects are modelled through an explicit heap: cells indexed by natural
numbers, the builder holding a reference to its `errors` cell, and
`.copy()` allocating a fresh cell with the same contents.  In-place
mutation (append/remove/clear) is a write to the cell the caller holds. -/

structure PyHeap where
  cells : List (List String)
deriving DecidableEq, Repr

def heapRead (h : PyHeap) (r : Nat) : List String :=
  h.cells.getD r []

def heapWrite (h : PyHeap) (r : Nat) (v : List String) : PyHeap :=
  ⟨h.cells.set r v⟩

def heapAlloc (h : PyHeap) (v : List String) : Nat × PyHeap :=
  (h.cells.length, ⟨h.cells ++ [v]⟩)

/-- The builder object as the heap sees it: a reference to the cell
holding `self.errors`. -/
structure BuilderRef where
  errorsRef : Nat
deriving DecidableEq, Repr

/-- `BookBuilder.get_errors` (`book_builder.py` lines 127-133): read
`self.errors` and allocate a copy, returning the fresh reference. -/
def get_errors (b : BuilderRef) (h : PyHeap) : Nat × PyHeap :=
  heapAlloc h (heapRead h b.errorsRef)

/-! ## Theorems -/

/-- A text that is exactly a property drawer. -/
def c1drawer : String := ":PROPERTIES:\n:ID: abc\n:END:"

/-- A text that is exactly a fenced SRC block with a two-word body. -/
def c1src : String := "#+BEGIN_SRC python\nhello world\n#+END_SRC"

/-- C1.  `count_words` does return 0 on the empty string and on a text
consisting only of a property drawer, but on a text consisting only of a
fenced SRC block it returns the number of words in the block *body* (2
here, not 0): the directive pass runs first and erases the `#+BEGIN_SRC` /
`#+END_SRC` delimiter lines, so the later fenced-block pass finds no
fences and the body is never stripped.  This contradicts the claim (and
the source's own comment and test, which expect block bodies to be
excluded). -/
theorem count_words_src_block_body_counted :
    count_words "" = 0 ∧ count_words c1drawer = 0
      ∧ count_words c1src = 2 ∧ count_words c1src ≠ 0 := by
  refine ⟨by decide, by decide, by decide, by decide⟩

/-- A chapter file with a three-word intro and a one-word section. -/
def c2file : String := "* T\nintro one two\n** S\nbody\n"

/-- C2.  The parsed chapter's word count does *not* equal intro word count
plus the sum of the section word counts: `Chapter.calculate_word_count`
sums only the sections (1 here), while the intro text between the chapter
heading and the first two-star heading (3 words here) is never counted
anywhere.  This contradicts the claim (and the source's own tests, which
expect the intro to be included). -/
theorem chapter_word_count_excludes_intro :
    ∃ ch, extractChapter c2file = some ch
      ∧ Chapter.calculate_word_count ch = 1
      ∧ introWordCountSpec c2file = 3
      ∧ Chapter.calculate_word_count ch
          ≠ introWordCountSpec c2file + (ch.sections.map Section.word_count).sum :=
  ⟨{ title := "T", sections := [{ title := "S", content := "body", word_count := 1, order := 0 }] },
    by decide, by decide, by decide, by decide⟩

/-- Reading a missing chapter file ends in the generic `except Exception`
clause: the `except FileNotFoundError` clause of `chapter_parser.py`
line 34 names the imported custom class, which `open` never raises. -/
theorem chapterParse_missing (fs : FS) (path : String) (h : fs.read path = .missing) :
    chapterParse fs path
      = .raised (.parseError path (some ("Unexpected error reading file: " ++ fileNotFoundMsg path))) := by
  simp [chapterParse, h, openException, isCustomFileNotFound, isPermissionError,
    isUnicodeDecodeError, pyExcStr]

/-- C3.  For a file path that does not exist, `ChapterParser.parse` raises
`ParseError` ("Unexpected error reading file: [Errno 2] ..."), not the
custom `FileNotFoundError`: the `except FileNotFoundError` clause tests
for the imported custom class, which the builtin exception from `open`
does not match, so the catch-all `except Exception` wraps it into
`ParseError`.  This contradicts the claim and the method's own docstring. -/
theorem chapterParse_missing_file_raises_parseError (fs : FS) (path : String)
    (h : fs.read path = .missing) :
    chapterParse fs path
      = .raised (.parseError path (some ("Unexpected error reading file: " ++ fileNotFoundMsg path)))
    ∧ ¬ ∃ d, chapterParse fs path = .raised (.fileNotFound path d) := by
  refine ⟨chapterParse_missing fs path h, ?_⟩
  rw [chapterParse_missing fs path h]
  rintro ⟨d, hd⟩
  exact PyExc.noConfusion (PyResult.raised.inj hd)

/-- A file system with no readable files at all. -/
def fsAllMissing : FS := { read := fun _ => .missing, orgFiles := fun _ => [] }

/-- Witness for C3 at the concrete path of the source's own test. -/
theorem chapterParse_missing_file_raises_parseError_witness :
    (fsAllMissing.read "/nonexistent/file.org" = ReadResult.missing)
    ∧ chapterParse fsAllMissing "/nonexistent/file.org"
        = .raised (.parseError "/nonexistent/file.org"
            (some ("Unexpected error reading file: " ++ fileNotFoundMsg "/nonexistent/file.org"))) :=
  ⟨rfl, (chapterParse_missing_file_raises_parseError fsAllMissing "/nonexistent/file.org" rfl).1⟩

/-- C5.  `BookBuilder.build()`: a missing `toc.org` raises the custom
`FileNotFoundError` (the TOC parser checks existence explicitly before
opening); a present but blank `toc.org` raises `ParseError`; a readable,
non-blank `toc.org` whose first section yields no entries makes `build`
return `None` with an empty error log. -/
theorem build_toc_failure_modes (fs : FS) (dir : String) :
    (fs.read (joinPath dir "toc.org") = .missing →
      (build fs dir).result
        = .raised (.fileNotFound (joinPath dir "toc.org")
            (some "TOC file is required for building the book")))
    ∧ (∀ c, fs.read (joinPath dir "toc.org") = .ok c → pyStrip c.toList = [] →
        (build fs dir).result
          = .raised (.parseError (joinPath dir "toc.org") (some "TOC file is empty")))
    ∧ (∀ c, fs.read (joinPath dir "toc.org") = .ok c → pyStrip c.toList ≠ [] →
        extract_chapters (resolve_guid_to_filename fs (pyDirname (joinPath dir "toc.org"))) c.toList = [] →
        (build fs dir).result = .ok none ∧ (build fs dir).errors = []) := by
  refine ⟨fun h => ?_, fun c hc hblank => ?_, fun c hc hnb hzero => ?_⟩
  · simp [build, tocParse, h]
  · have hb : pyStrip c.data = [] := hblank
    simp [build, tocParse, hc, hb]
  · have hb : pyStrip c.data ≠ [] := hnb
    have hz : extract_chapters (resolve_guid_to_filename fs (pyDirname (joinPath dir "toc.org"))) c.data = [] := hzero
    simp [build, tocParse, hc, hb, hz]

/-- File system for the C5 witness, missing-TOC case. -/
def fs5a : FS := { read := fun _ => .missing, orgFiles := fun _ => [] }

/-- File system for the C5 witness, blank-TOC case. -/
def fs5b : FS :=
  { read := fun p => if p = "d/toc.org" then .ok "  \n " else .missing, orgFiles := fun _ => [] }

/-- File system for the C5 witness, zero-entries case. -/
def fs5c : FS :=
  { read := fun p => if p = "d/toc.org" then .ok "no headings here" else .missing,
    orgFiles := fun _ => [] }

/-- Witness for C5: the three failure modes at concrete directories. -/
theorem build_toc_failure_modes_witness :
    (build fs5a "d").result
        = .raised (.fileNotFound "d/toc.org" (some "TOC file is required for building the book"))
    ∧ (build fs5b "d").result = .raised (.parseError "d/toc.org" (some "TOC file is empty"))
    ∧ (build fs5c "d").result = .ok none ∧ (build fs5c "d").errors = [] :=
  ⟨(build_toc_failure_modes fs5a "d").1 rfl,
    (build_toc_failure_modes fs5b "d").2.1 "  \n " rfl (by decide),
    (build_toc_failure_modes fs5c "d").2.2 "no headings here" rfl (by decide) (by decide)⟩

/-- C6.  When the TOC yields exactly one entry whose file parses to a
chapter and one entry whose file is missing (in either order), `build`
returns a book with exactly that one chapter, no exception propagates,
and the error log holds exactly one diagnostic built from the missing
file's name. -/
theorem build_one_missing_one_good (fs : FS) (dir fe te fm tm : String) (ch : Chapter)
    (horder : tocParse fs (joinPath dir "toc.org") = .ok [(some fe, te), (some fm, tm)]
      ∨ tocParse fs (joinPath dir "toc.org") = .ok [(some fm, tm), (some fe, te)])
    (hgood : chapterParse fs (joinPath dir fe) = .ok (some ch))
    (hmiss : fs.read (joinPath dir fm) = .missing) :
    (build fs dir).result = .ok (some { title := "Book Monitor", author := "Unknown", chapters := [ch] })
    ∧ (build fs dir).errors
        = ["Chapter " ++ fm ++ ": "
            ++ pyExcStr (.parseError (joinPath dir fm)
                (some ("Unexpected error reading file: " ++ fileNotFoundMsg (joinPath dir fm))))] := by
  have hm := chapterParse_missing fs (joinPath dir fm) hmiss
  rcases horder with h | h <;>
    simp [build, h, buildStep, hgood, hm, isCustomFileNotFound, isParseErrorExc, Book.add_chapter]

/-- File system for the C6 witness: a TOC naming one parseable and one
missing chapter file. -/
def fs6 : FS :=
  { read := fun p =>
      if p = "d/toc.org" then .ok "* T\n[[file:a.org][A]]\n[[file:m.org][M]]\n"
      else if p = "d/a.org" then .ok "* A\nhello world\n"
      else .missing,
    orgFiles := fun _ => [] }

/-- Witness for C6 on a concrete directory. -/
theorem build_one_missing_one_good_witness :
    (build fs6 "d").result
        = .ok (some { title := "Book Monitor", author := "Unknown", chapters := [{ title := "A", sections := [] }] })
    ∧ (build fs6 "d").errors
        = ["Chapter " ++ "m.org" ++ ": "
            ++ pyExcStr (.parseError (joinPath "d" "m.org")
                (some ("Unexpected error reading file: " ++ fileNotFoundMsg (joinPath "d" "m.org"))))] :=
  build_one_missing_one_good fs6 "d" "a.org" "A" "m.org" "M" { title := "A", sections := [] }
    (Or.inl (by decide)) (by decide) rfl

/-- A TOC entry that fails contributes exactly its diagnostic string. -/
theorem buildStep_fail (fs : FS) (dir : String) (acc : Book × Nat × List String)
    (e : Option String × String) (h : entrySucceeds fs dir e = false) :
    buildStep fs dir acc e = (acc.1, acc.2.1, acc.2.2 ++ [entryFailMsg fs dir e]) := by
  obtain ⟨f, t⟩ := e
  cases f with
  | none => rfl
  | some f =>
    cases hcp : chapterParse fs (joinPath dir f) with
    | ok oc =>
      cases oc with
      | none => simp [buildStep, entryFailMsg, hcp]
      | some c => simp [entrySucceeds, hcp] at h
    | raised ex =>
      simp [buildStep, entryFailMsg, hcp]
      split <;> simp

/-- The chapter loop over entries that all fail: the book and success
count are untouched and each entry appends its diagnostic. -/
theorem buildFold_fail (fs : FS) (dir : String) :
    ∀ (entries : List (Option String × String)) (acc : Book × Nat × List String),
      (∀ e ∈ entries, entrySucceeds fs dir e = false) →
      entries.foldl (buildStep fs dir) acc
        = (acc.1, acc.2.1, acc.2.2 ++ entries.map (entryFailMsg fs dir)) := by
  intro entries
  induction entries with
  | nil => intro acc _; simp
  | cons e es ih =>
    intro acc h
    have he := h e (by simp)
    have hes : ∀ x ∈ es, entrySucceeds fs dir x = false := fun x hx => h x (by simp [hx])
    simp [List.foldl_cons, buildStep_fail fs dir acc e he, ih _ hes]

/-- C7.  When the TOC entry list is non-empty but no entry yields a
chapter, `build` returns `None` without raising, and the error log records
one diagnostic per entry, in order. -/
theorem build_total_failure_returns_absent (fs : FS) (dir : String)
    (entries : List (Option String × String))
    (htoc : tocParse fs (joinPath dir "toc.org") = .ok entries)
    (hne : entries ≠ [])
    (hfail : ∀ e ∈ entries, entrySucceeds fs dir e = false) :
    (build fs dir).result = .ok none
    ∧ (build fs dir).errors = entries.map (entryFailMsg fs dir) := by
  simp [build, htoc, hne, buildFold_fail fs dir entries _ hfail]

/-- File system for the C7 witness: the TOC names one missing chapter file
and one part marker; neither entry can succeed. -/
def fs7 : FS :=
  { read := fun p =>
      if p = "d/toc.org" then .ok "* T\n[[file:x.org][X]]\n** Part One\n" else .missing,
    orgFiles := fun _ => [] }

/-- Witness for C7 on a concrete directory. -/
theorem build_total_failure_returns_absent_witness :
    (build fs7 "d").result = .ok none
    ∧ (build fs7 "d").errors
        = ([(some "x.org", "X"), (none, "Part One")].map (entryFailMsg fs7 "d")) :=
  build_total_failure_returns_absent fs7 "d" [(some "x.org", "X"), (none, "Part One")]
    (by decide) (by decide) (by decide)

/-- The parser sets each flushed section's `order` to the number of
sections flushed before it. -/
theorem mkParsedSection_order (t : List Char) (c : List (List Char)) (o : Nat) :
    (mkParsedSection t c o).order = o := by
  simp only [mkParsedSection, Section.init]
  split <;> rfl

/-- `Chapter.add_section` folded over a list appends it to `sections`. -/
theorem foldl_add_section_sections (l : List Section) :
    ∀ c : Chapter, (l.foldl Chapter.add_section c).sections = c.sections ++ l := by
  induction l with
  | nil => intro c; simp
  | cons s l ih => intro c; simp [Chapter.add_section, ih]

/-- The pending section still to be flushed, as a count. -/
def curCount : Option (List Char) → Nat
  | none => 0
  | some _ => 1

/-- Invariant of the section loop: each two-star heading line contributes
exactly one section, and flushed sections receive consecutive `order`
values starting at the length of the starting accumulator. -/
theorem sectionsLoop_spec (ls : List (List Char)) :
    ∀ (cur : Option (List Char)) (content : List (List Char)) (secs : List Section),
      ((sectionsLoop ls cur content secs).map Section.order
        = secs.map Section.order
          ++ List.range' secs.length (ls.countP isSectionHeading + curCount cur))
      ∧ (sectionsLoop ls cur content secs).length
          = secs.length + (ls.countP isSectionHeading + curCount cur) := by
  induction ls with
  | nil =>
    intro cur content secs
    cases cur with
    | none => simp [sectionsLoop, curCount]
    | some t => simp [sectionsLoop, curCount, mkParsedSection_order, List.range'_succ]
  | cons l ls ih =>
    intro cur content secs
    by_cases hl : isSectionHeading l
    · cases cur with
      | none =>
        have h2 := ih (some (headingTitle (l.drop 3))) [] secs
        simp only [sectionsLoop, hl, if_true, List.countP_cons_of_pos _ _ hl, curCount] at h2 ⊢
        simpa using h2
      | some t =>
        have h2 := ih (some (headingTitle (l.drop 3))) [] (secs ++ [mkParsedSection t content secs.length])
        simp only [sectionsLoop, hl, if_true, List.countP_cons_of_pos _ _ hl, curCount,
          List.map_append, List.length_append, List.map_cons, List.map_nil,
          mkParsedSection_order, List.length_cons, List.length_nil] at h2 ⊢
        rw [h2.1, h2.2]
        constructor
        · simp [List.append_assoc]
          simp [List.range'_succ]
        · omega
    · cases cur with
      | none =>
        have h2 := ih none content secs
        simp only [sectionsLoop, hl, if_false, List.countP_cons_of_neg _ _ hl, curCount] at h2 ⊢
        simpa using h2
      | some t =>
        have h2 := ih (some t) (content ++ [l]) secs
        simp only [sectionsLoop, hl, if_false, List.countP_cons_of_neg _ _ hl, curCount] at h2 ⊢
        simpa using h2

/-- C8.  Every successfully parsed chapter has exactly as many sections as
its span has two-star heading lines, with `order` fields 0, 1, ..., N-1 in
file order. -/
theorem sections_order_contiguous (content : String) (t span : List Char) (ch : Chapter)
    (h1 : chapterTitleAndSpan content.toList = some (t, span))
    (h2 : extractChapter content = some ch) :
    ch.sections.length = (splitOnNl span).countP isSectionHeading
    ∧ ch.sections.map Section.order = List.range ch.sections.length := by
  have hch : ch.sections = extract_sections span := by
    rw [extractChapter, h1] at h2
    have := (Option.some.inj h2).symm
    rw [this, foldl_add_section_sections]
    rfl
  have hs := sectionsLoop_spec (splitOnNl span) none [] []
  rw [hch]
  unfold extract_sections
  simp only [List.map_nil, List.length_nil, List.nil_append, curCount, Nat.add_zero,
    Nat.zero_add] at hs
  refine ⟨hs.2, ?_⟩
  rw [hs.1, hs.2, List.range_eq_range']

/-- The spec's literal chapter scenario. -/
def c8file : String := "* T\n** S1\nThis has four words.\n** S2\nThis section has five words.\n"

/-- The chapter `c8file` parses to. -/
def c8chap : Chapter :=
  { title := "T",
    sections := [{ title := "S1", content := "This has four words.", word_count := 4, order := 0 },
                 { title := "S2", content := "This section has five words.", word_count := 5, order := 1 }] }

/-- Witness for C8 on the spec's literal scenario (two sections, orders
0 and 1). -/
theorem sections_order_contiguous_witness :
    c8chap.sections.length = (splitOnNl c8file.toList).countP isSectionHeading
    ∧ c8chap.sections.map Section.order = List.range c8chap.sections.length :=
  sections_order_contiguous c8file "T".toList c8file.toList c8chap (by decide) (by decide)

/-- Once the first heading is found, the scan collects lines up to the
next top-level heading. -/
theorem fsLoop_true (ls : List (List Char)) :
    fsLoop ls true = ls.takeWhile (fun l => !isTopHeadingRe l) := by
  induction ls with
  | nil => rfl
  | cons l ls ih =>
    by_cases h : isTopHeadingRe l <;> simp [fsLoop, h, List.takeWhile_cons, ih]

/-- Collecting up to the next top-level heading is unaffected by anything
appended after a top-level heading line. -/
theorem takeWhile_append_top (hd : List Char) (hh : isTopHeadingRe hd = true) :
    ∀ (xs ys : List (List Char)),
      (xs ++ hd :: ys).takeWhile (fun l => !isTopHeadingRe l)
        = xs.takeWhile (fun l => !isTopHeadingRe l) := by
  intro xs
  induction xs with
  | nil => intro ys; simp [List.takeWhile_cons, hh]
  | cons x xs ih =>
    intro ys
    by_cases hx : isTopHeadingRe x <;> simp [List.takeWhile_cons, hx, ih]

/-- The first-section scan ignores everything from a later top-level
heading on, provided some line before it is a top-level heading. -/
theorem fsLoop_false_append (hd : List Char) (hh : isTopHeadingRe hd = true) :
    ∀ (ls extra : List (List Char)), (∃ l ∈ ls, isTopHeadingRe l = true) →
      fsLoop (ls ++ hd :: extra) false = fsLoop ls false := by
  intro ls
  induction ls with
  | nil => intro extra hex; simp at hex
  | cons l ls ih =>
    intro extra hex
    by_cases hl : isTopHeadingRe l
    · simp [fsLoop, hl, fsLoop_true, takeWhile_append_top hd hh]
    · have hex' : ∃ x ∈ ls, isTopHeadingRe x = true := by
        rcases hex with ⟨x, hx, hxt⟩
        rcases List.mem_cons.mp hx with rfl | hx'
        · exact absurd hxt hl
        · exact ⟨x, hx', hxt⟩
      simp [fsLoop, hl, ih extra hex']

/-- `split('\n')` never yields an empty list of fields. -/
theorem splitOnNl_ne_nil (cs : List Char) : splitOnNl cs ≠ [] := by
  cases cs with
  | nil => simp [splitOnNl]
  | cons c cs =>
    by_cases h : c = '\n'
    · simp [splitOnNl, h]
    · simp only [splitOnNl, if_neg h]
      cases hs : splitOnNl cs <;> simp

/-- A newline-free field splits to itself. -/
theorem splitOnNl_of_no_nl (l : List Char) (h : '\n' ∉ l) : splitOnNl l = [l] := by
  induction l with
  | nil => rfl
  | cons c cs ih =>
    have hc : c ≠ '\n' := fun hc => h (hc ▸ List.mem_cons_self c cs)
    have hcs : '\n' ∉ cs := fun hm => h (List.mem_cons_of_mem c hm)
    simp [splitOnNl, hc, ih hcs]

/-- Splitting after a leading newline-free field peels it off. -/
theorem splitOnNl_append_nl (l t : List Char) (h : '\n' ∉ l) :
    splitOnNl (l ++ '\n' :: t) = l :: splitOnNl t := by
  induction l with
  | nil => simp [splitOnNl]
  | cons c cs ih =>
    have hc : c ≠ '\n' := fun hc => h (hc ▸ List.mem_cons_self c cs)
    have hcs : '\n' ∉ cs := fun hm => h (List.mem_cons_of_mem c hm)
    simp only [List.cons_append, splitOnNl, if_neg hc, List.append_eq, ih hcs]

/-- `split('\n')` inverts `'\n'.join` on genuine (newline-free) lines. -/
theorem splitOnNl_joinNl : ∀ (ls : List (List Char)), ls ≠ [] →
    (∀ l ∈ ls, '\n' ∉ l) → splitOnNl (joinNl ls) = ls := by
  intro ls
  induction ls with
  | nil => intro h; exact absurd rfl h
  | cons l ls ih =>
    intro _ h
    cases ls with
    | nil => exact splitOnNl_of_no_nl l (h l (by simp))
    | cons l' ls' =>
      have h1 : '\n' ∉ l := h l (by simp)
      have h2 : ∀ x ∈ l' :: ls', '\n' ∉ x := fun x hx => h x (by simp [hx])
      simp only [joinNl, splitOnNl_append_nl l _ h1, ih (by simp) h2]

/-- The line lists scanned by the two sides agree after the cut. -/
theorem extract_chapters_frame (resolve : List Char → Option String)
    (ls₁ ls₂ : List (List Char)) (hd : List Char)
    (hh : isTopHeadingRe hd = true)
    (hex : ∃ l ∈ ls₁, isTopHeadingRe l = true)
    (hnl : ∀ l ∈ ls₁ ++ hd :: ls₂, '\n' ∉ l) :
    extract_chapters resolve (joinNl (ls₁ ++ hd :: ls₂))
      = extract_chapters resolve (joinNl ls₁) := by
  have hne₁ : ls₁ ≠ [] := by
    rcases hex with ⟨x, hx, _⟩
    exact List.ne_nil_of_mem hx
  have hnl₁ : ∀ l ∈ ls₁, '\n' ∉ l := fun l hl => hnl l (by simp [hl])
  unfold extract_chapters extract_first_section
  rw [splitOnNl_joinNl (ls₁ ++ hd :: ls₂) (by simp) hnl,
    splitOnNl_joinNl ls₁ hne₁ hnl₁,
    fsLoop_false_append hd hh ls₁ ls₂ hex]

/-- C9.  TOC entries come only from the first top-level section, in
syntactic order: the concrete TOC yields exactly its two first-section
file links in order, and, in general, appending a further top-level
heading and any lines after it leaves the extracted entries unchanged
(whatever the GUID-resolution environment). -/
theorem toc_first_section_only :
    extract_chapters (fun _ => none)
        "* TOC\n[[file:a.org][A]]\n[[file:b.org][B]]\n* Notes\n[[file:c.org][C]]".toList
      = [(some "a.org", "A"), (some "b.org", "B")]
    ∧ ∀ (resolve : List Char → Option String) (ls₁ ls₂ : List (List Char)) (hd : List Char),
        isTopHeadingRe hd = true →
        (∃ l ∈ ls₁, isTopHeadingRe l = true) →
        (∀ l ∈ ls₁ ++ hd :: ls₂, '\n' ∉ l) →
        extract_chapters resolve (joinNl (ls₁ ++ hd :: ls₂))
          = extract_chapters resolve (joinNl ls₁) :=
  ⟨by decide, fun resolve ls₁ ls₂ hd hh hex hnl =>
    extract_chapters_frame resolve ls₁ ls₂ hd hh hex hnl⟩

/-- Witness for C9: the frame part at a concrete TOC whose second section
contains a link, which is dropped. -/
theorem toc_first_section_only_witness :
    extract_chapters (fun _ => none)
        (joinNl (["* TOC".toList, "[[file:a.org][A]]".toList]
          ++ "* Notes".toList :: ["[[file:c.org][C]]".toList]))
      = extract_chapters (fun _ => none) (joinNl ["* TOC".toList, "[[file:a.org][A]]".toList]) :=
  toc_first_section_only.2 (fun _ => none)
    ["* TOC".toList, "[[file:a.org][A]]".toList] ["[[file:c.org][C]]".toList]
    "* Notes".toList (by decide) (by decide) (by decide)

/-- Writing an appended fresh cell leaves all earlier cells readable
unchanged. -/
theorem getD_append_set_ne (l : List (List String)) (v w : List String) :
    ∀ i, i < l.length → ((l ++ [v]).set l.length w).getD i [] = l.getD i [] := by
  induction l with
  | nil => intro i hi; simp at hi
  | cons x xs ih =>
    intro i hi
    cases i with
    | zero => rfl
    | succ j =>
      have hj : j < xs.length := by simpa using hi
      simp only [List.length_cons, List.cons_append]
      exact ih j hj

/-- Reading a just-appended cell gives the appended value. -/
theorem getD_concat_length (l : List (List String)) (v : List String) :
    (l ++ [v]).getD l.length [] = v := by
  induction l with
  | nil => rfl
  | cons x xs ih =>
    simp only [List.cons_append, List.length_cons, List.getD_cons_succ]
    exact ih

/-- C10.  `get_errors` hands out a copy: writing any value into the
returned list's cell leaves the builder's internal log unchanged, so a
subsequent `get_errors` still returns the original diagnostics. -/
theorem get_errors_returns_copy (b : BuilderRef) (h : PyHeap) (v : List String)
    (hv : b.errorsRef < h.cells.length) :
    heapRead (heapWrite (get_errors b h).2 (get_errors b h).1 v) b.errorsRef
      = heapRead h b.errorsRef
    ∧ heapRead (get_errors b (heapWrite (get_errors b h).2 (get_errors b h).1 v)).2
        (get_errors b (heapWrite (get_errors b h).2 (get_errors b h).1 v)).1
      = heapRead h b.errorsRef := by
  have h1 : heapRead (heapWrite (get_errors b h).2 (get_errors b h).1 v) b.errorsRef
      = heapRead h b.errorsRef := by
    simp only [get_errors, heapAlloc, heapWrite, heapRead]
    exact getD_append_set_ne h.cells _ v b.errorsRef hv
  refine ⟨h1, ?_⟩
  have h2 : ∀ hp : PyHeap, heapRead (get_errors b hp).2 (get_errors b hp).1
      = heapRead hp b.errorsRef := by
    intro hp
    simp only [get_errors, heapAlloc, heapRead]
    exact getD_concat_length hp.cells _
  rw [h2, h1]

/-- Witness for C10 on a one-cell heap. -/
theorem get_errors_returns_copy_witness :
    heapRead (heapWrite (get_errors ⟨0⟩ ⟨[["e1"]]⟩).2 (get_errors ⟨0⟩ ⟨[["e1"]]⟩).1 ["hacked"])
        (BuilderRef.errorsRef ⟨0⟩)
      = heapRead ⟨[["e1"]]⟩ (BuilderRef.errorsRef ⟨0⟩)
    ∧ heapRead
        (get_errors ⟨0⟩ (heapWrite (get_errors ⟨0⟩ ⟨[["e1"]]⟩).2 (get_errors ⟨0⟩ ⟨[["e1"]]⟩).1 ["hacked"])).2
        (get_errors ⟨0⟩ (heapWrite (get_errors ⟨0⟩ ⟨[["e1"]]⟩).2 (get_errors ⟨0⟩ ⟨[["e1"]]⟩).1 ["hacked"])).1
      = heapRead ⟨[["e1"]]⟩ (BuilderRef.errorsRef ⟨0⟩) :=
  get_errors_returns_copy ⟨0⟩ ⟨[["e1"]]⟩ ["hacked"] (by decide)

/-- A successful link match decomposes the input literally: everything the
scanner reports really occurs, in place, as `[[` pre url `][` desc `]]`. -/
theorem matchLinkAt_sound (pre : List Char) :
    ∀ (cs u d rest : List Char), matchLinkAt pre cs = some (u, d, rest) →
      cs = '[' :: '[' :: pre ++ u ++ ']' :: '[' :: d ++ ']' :: ']' :: rest := by
  intro cs u d rest h
  simp only [matchLinkAt] at h
  by_cases hp : (('[' :: '[' :: pre).isPrefixOf cs) = true
  · rw [if_pos hp] at h
    obtain ⟨t, rfl⟩ : ∃ t, cs = ('[' :: '[' :: pre) ++ t := by
      obtain ⟨t, ht⟩ := List.isPrefixOf_iff_prefix.mp hp
      exact ⟨t, ht.symm⟩
    have hdrop : ((('[' :: '[' :: pre) ++ t).drop (2 + pre.length)) = t := by
      have hlen : ('[' :: '[' :: pre).length = 2 + pre.length := by
        simp only [List.length_cons]
        omega
      rw [← hlen, List.drop_left]
    rw [hdrop] at h
    have htw := List.takeWhile_append_dropWhile (fun c => decide (c ≠ ']')) t
    split at h
    · rename_i u0 us r3 hu ht3
      have htw3 := List.takeWhile_append_dropWhile (fun c => decide (c ≠ ']')) r3
      split at h
      · rename_i d0 ds rest' hd hr
        obtain ⟨h1, h2, h3⟩ : t.takeWhile (fun c => decide (c ≠ ']')) = u
            ∧ r3.takeWhile (fun c => decide (c ≠ ']')) = d ∧ rest' = rest := by
          have hinj := Option.some.inj h
          exact ⟨congrArg (fun x => x.1) hinj, congrArg (fun x => x.2.1) hinj,
            congrArg (fun x => x.2.2) hinj⟩
        rw [h3] at hr
        have ht : t = u ++ ']' :: '[' :: r3 := by
          rw [← h1, ← ht3]
          exact htw.symm
        have hr3 : r3 = d ++ ']' :: ']' :: rest := by
          rw [← h2, ← hr]
          exact htw3.symm
        rw [ht, hr3]
        simp [List.append_assoc]
      · exact absurd h (by simp)
    · exact absurd h (by simp)
  · rw [if_neg hp] at h
    exact absurd h (by simp)

/-- Every pair `re.findall` reports corresponds to a literal occurrence of
the full link in the scanned text. -/
theorem findLinksAux_sound (pre : List Char) :
    ∀ (fuel : Nat) (cs u d : List Char),
      (u, d) ∈ findLinksAux pre fuel cs →
      ∃ p q, cs = p ++ ('[' :: '[' :: pre ++ u ++ ']' :: '[' :: d ++ ']' :: ']' :: q) := by
  intro fuel
  induction fuel with
  | zero => intro cs u d h; simp [findLinksAux] at h
  | succ n ih =>
    intro cs u d h
    cases cs with
    | nil => simp [findLinksAux] at h
    | cons c cs' =>
      cases hm : matchLinkAt pre (c :: cs') with
      | none =>
        rw [findLinksAux, hm] at h
        obtain ⟨p, q, hp⟩ := ih cs' u d h
        exact ⟨c :: p, q, by rw [hp]; rfl⟩
      | some x =>
        obtain ⟨u', d', rest⟩ := x
        rw [findLinksAux, hm] at h
        rcases List.mem_cons.mp h with heq | hmem
        · obtain ⟨h1, h2⟩ : u = u' ∧ d = d' := by
            exact ⟨congrArg Prod.fst heq, congrArg Prod.snd heq⟩
          subst h1
          subst h2
          exact ⟨[], rest, by simpa using matchLinkAt_sound pre (c :: cs') u d rest hm⟩
        · obtain ⟨p, q, hp⟩ := ih rest u d hmem
          have hcs := matchLinkAt_sound pre (c :: cs') u' d' rest hm
          refine ⟨'[' :: '[' :: pre ++ u' ++ ']' :: '[' :: d' ++ ']' :: ']' :: p, q, ?_⟩
          rw [hcs, hp]
          simp

/-- C4 (amended).  `extract_links` returns the described-link pairs first,
in appearance order — each corresponding to a literal `[[url][desc]]`
occurrence in the text — followed by the bare links found once the
described-link occurrences have been textually removed, each as
`(url, url)`; no URL-based deduplication is applied to the bare links. -/
theorem extract_org_links_structure (text : String) :
    (extract_org_links text
      = ((findDescribed text.toList).map fun p => (String.mk p.1, String.mk p.2))
        ++ ((findSimple (removeDescribed text.toList)).map fun u => (String.mk u, String.mk u)))
    ∧ ∀ u d, (u, d) ∈ findDescribed text.toList →
        ∃ p q, text.toList = p ++ descLinkChars u d ++ q := by
  constructor
  · by_cases h : text = ""
    · subst h; rfl
    · simp [extract_org_links, h]
  · intro u d hm
    obtain ⟨p, q, hp⟩ := findLinksAux_sound [] text.toList.length text.toList u d hm
    exact ⟨p, q, by rw [hp]; simp [descLinkChars]⟩

/-- Witness for C4's amended theorem: the described pair reported for a
concrete text occurs literally in it. -/
theorem extract_org_links_structure_witness :
    ∃ p q, "see [[u][d]] end".toList = p ++ descLinkChars "u".toList "d".toList ++ q :=
  (extract_org_links_structure "see [[u][d]] end").2 "u".toList "d".toList (by decide)

/-- C4 (counterexample).  On `"[[u][d]] [[u]]"` the bare link `[[u]]` is
appended even though its URL `u` was already captured by the described
link `[[u][d]]`: the source filters bare links only by textual removal of
described-link occurrences, never by URL. -/
theorem extract_org_links_no_url_dedup_cex :
    extract_org_links "[[u][d]] [[u]]" = [("u", "d"), ("u", "u")]
    ∧ extract_links_claim "[[u][d]] [[u]]" = [("u", "d")]
    ∧ extract_org_links "[[u][d]] [[u]]" ≠ extract_links_claim "[[u][d]] [[u]]" := by
  refine ⟨by decide, by decide, by decide⟩

end BookMonitor
